import Mathlib

/-
  Verification of the RegulatoryRadar frontend client layer and of the
  backend pipeline contracts described in the product requirements
  document.  The definitions below are a shallow embedding: the client
  functions of src/frontend/src/api.ts and the rendering components are
  translated into pure Lean functions over an explicit model of
  JavaScript values, HTTP requests and responses, and browser state.
  Backend components that exist only as declarations (the SQL schema and
  prompt templates in PRD.md) are modelled from the specification text
  and are marked as such in their doc comments.
-/

namespace RegRadar

/-- A JavaScript value as it can appear in a filter object field:
    undefined, null, a string, a number (integral in this model), or a
    boolean. -/
inductive JsValue where
  | undef : JsValue
  | null : JsValue
  | str : String → JsValue
  | num : Int → JsValue
  | bool : Bool → JsValue
  deriving DecidableEq, Repr

/-- The result of the JavaScript String() conversion on a JsValue. -/
def JsValue.toJsString : JsValue → String
  | .undef => "undefined"
  | .null => "null"
  | .str s => s
  | .num n => toString n
  | .bool b => if b then "true" else "false"

/-- The guard in getUpdates: value is kept when it is strictly unequal
    to undefined, to null and to the empty string.  Strict inequality in
    JavaScript never identifies values of different types, so a number
    or a boolean always passes the empty-string test. -/
def keptByGetUpdates : JsValue → Bool
  | .undef => false
  | .null => false
  | .str s => decide (s ≠ "")
  | .num _ => true
  | .bool _ => true

/-- The body of the forEach loop in getUpdates: append the pair
    (key, String(value)) to the URLSearchParams exactly when the guard
    holds. -/
def buildParams (filters : List (String × JsValue)) : List (String × String) :=
  filters.filterMap fun kv =>
    if keptByGetUpdates kv.2 then some (kv.1, kv.2.toJsString) else none

/-- URLSearchParams.toString on the accumulated pairs (percent-encoding
    of the individual pieces is not modelled; the pairs themselves are
    what the claims are about). -/
def renderQuery (params : List (String × String)) : String :=
  String.intercalate "&" (params.map fun kv => kv.1 ++ "=" ++ kv.2)

/-- An HTTP request as the client builds it: path with query string,
    method, and an optional JSON object body given as its list of
    fields. -/
structure Request where
  url : String
  method : String
  body : Option (List (String × JsValue))
  deriving DecidableEq, Repr

/-- getUpdates (api.ts): build the query string from the filters and
    issue a GET to /updates, with the question mark present exactly when
    the query string is nonempty. -/
def getUpdatesRequest (filters : List (String × JsValue)) : Request :=
  let query := renderQuery (buildParams filters)
  { url := "/updates" ++ (if query = "" then "" else "?" ++ query)
    method := "GET"
    body := none }

/-- previewDigest (api.ts): POST to /digests/preview with the JSON body
    containing the single field hours_back set to 24. -/
def previewDigestRequest : Request :=
  { url := "/digests/preview"
    method := "POST"
    body := some [("hours_back", JsValue.num 24)] }

/-- bookmarkUpdate (api.ts): POST to /updates/{id}/bookmark with no
    body. -/
def bookmarkRequest (id : Nat) : Request :=
  { url := "/updates/" ++ toString id ++ "/bookmark"
    method := "POST"
    body := none }

/-- markAsRead (api.ts): POST to /updates/{id}/read with no body. -/
def markAsReadRequest (id : Nat) : Request :=
  { url := "/updates/" ++ toString id ++ "/read"
    method := "POST"
    body := none }

/-- getDigests (api.ts): GET to /digests with pagination query. -/
def getDigestsRequest (page pageSize : Int) : Request :=
  { url := "/digests?" ++ renderQuery
      [("page", toString page), ("page_size", toString pageSize)]
    method := "GET"
    body := none }

/-- getDigest (api.ts): GET to /digests/{id}. -/
def getDigestRequest (id : Nat) : Request :=
  { url := "/digests/" ++ toString id
    method := "GET"
    body := none }

/-- Field lookup in a JSON object body. -/
def Request.bodyField (r : Request) (key : String) : Option JsValue :=
  match r.body with
  | none => none
  | some fields => (fields.find? fun kv => kv.1 == key).map Prod.snd

/-- The browser-visible state apiFetch can mutate: the stored token in
    localStorage under rr_token, and window.location.href. -/
structure ClientState where
  token : Option String
  location : String
  deriving DecidableEq, Repr

/-- An HTTP response as apiFetch inspects it: numeric status and the
    optional detail field of the parsed JSON error body (none both when
    the body fails to parse and when it has no detail field, matching
    the catch clause returning an empty object). -/
structure HttpResponse where
  status : Nat
  detail : Option String
  deriving DecidableEq, Repr

/-- Response.ok in the fetch API: status in the range 200 to 299. -/
def respOk (r : HttpResponse) : Bool :=
  decide (200 ≤ r.status) && decide (r.status < 300)

/-- What apiFetch produces for its caller. -/
inductive FetchOutcome where
  | success : String → FetchOutcome
  | noContent : FetchOutcome
  | authFailure : FetchOutcome
  | failure : String → FetchOutcome
  deriving DecidableEq, Repr

/-- The error message built for a non-ok response:
    body.detail when it is a truthy string, otherwise the generic
    status message.  An empty-string detail is falsy in JavaScript and
    falls through to the generic message. -/
def failureMessage (r : HttpResponse) : String :=
  match r.detail with
  | some d => if d = "" then "Request failed: " ++ toString r.status else d
  | none => "Request failed: " ++ toString r.status

/-- The response-handling tail of apiFetch (api.ts lines 130 to 145):
    on 401 remove the token, redirect to /login and throw AuthError;
    on any other non-ok status throw an Error with the detail-or-generic
    message; on 204 return undefined; otherwise return the parsed JSON
    body. -/
def apiFetchHandle (st : ClientState) (resp : HttpResponse) (respBody : String) :
    ClientState × FetchOutcome :=
  if resp.status = 401 then
    ({ token := none, location := "/login" }, .authFailure)
  else if !(respOk resp) then
    (st, .failure (failureMessage resp))
  else if resp.status = 204 then
    (st, .noContent)
  else
    (st, .success respBody)

/-- The Digest record the client receives from the API (api.ts
    interface Digest). -/
structure DigestDto where
  id : Nat
  date : String
  updateCount : Nat
  htmlContent : String
  delivered : Bool
  deriving DecidableEq, Repr

/-- The delivery badge a digest row shows in the history list. -/
inductive DeliveryBadge where
  | deliveredBadge : DeliveryBadge
  | notDeliveredBadge : DeliveryBadge
  deriving DecidableEq, Repr

/-- One rendered row of the digest history list (Feed.tsx, Digests
    component): date label, update count and the delivery badge. -/
structure DigestRowView where
  digestId : Nat
  dateLabel : String
  updateCount : Nat
  badge : DeliveryBadge
  deriving DecidableEq, Repr

/-- Rendering of a single digest in the history list: the badge is
    Delivered when digest.delivered holds and Not delivered otherwise;
    the row itself is produced unconditionally. -/
def renderDigestRow (d : DigestDto) : DigestRowView :=
  { digestId := d.id
    dateLabel := d.date
    updateCount := d.updateCount
    badge := if d.delivered then .deliveredBadge else .notDeliveredBadge }

/-- The digests.map call in the Digests component: every digest of the
    loaded list becomes one row. -/
def renderDigestList (ds : List DigestDto) : List DigestRowView :=
  ds.map renderDigestRow

/-- The view RelevanceBadge produces when it renders at all. -/
structure BadgeView where
  label : String
  bg : String
  textColor : String
  deriving DecidableEq, Repr

/-- RelevanceBadge: returns null for a null or undefined score;
    otherwise rounds the score and picks the colour band.  Scores are
    integral in this model, so Math.round is the identity. -/
def relevanceBadge (score : Option Int) : Option BadgeView :=
  match score with
  | none => none
  | some s =>
    let rounded := s
    if rounded > 80 then
      some { label := toString rounded ++ "%", bg := "bg-green-100",
             textColor := "text-green-800" }
    else if rounded ≥ 50 then
      some { label := toString rounded ++ "%", bg := "bg-yellow-100",
             textColor := "text-yellow-800" }
    else
      some { label := toString rounded ++ "%", bg := "bg-gray-100",
             textColor := "text-gray-600" }

/-- The RegulatoryUpdate record as the client receives it (api.ts
    interface RegulatoryUpdate), restricted to the fields UpdateCard
    reads. -/
structure RegulatoryUpdateDto where
  id : Nat
  title : String
  source : String
  updateType : String
  summary : Option String
  aiSummary : Option String
  content : Option String
  relevanceScore : Option Int
  impactLevel : Option String
  publishedDate : String
  deriving DecidableEq, Repr

/-- JavaScript truthiness chain a || b for optional strings: an absent
    value and the empty string are both falsy. -/
def orTruthy (a : Option String) (b : String) : String :=
  match a with
  | some s => if s = "" then b else s
  | none => b

/-- displaySummary in UpdateCard:
    ai_summary, else summary, else content, else the empty string. -/
def displaySummary (u : RegulatoryUpdateDto) : String :=
  orTruthy u.aiSummary (orTruthy u.summary (orTruthy u.content ""))

/-- truncatedSummary in UpdateCard: cut to 180 characters with an
    ellipsis when longer. -/
def truncatedSummary (u : RegulatoryUpdateDto) : String :=
  let s := displaySummary u
  if s.length > 180 then (s.take 180) ++ "..." else s

/-- The card UpdateCard renders: source chip, title, the summary
    paragraph when the truncated summary is nonempty, and the optional
    relevance badge.  The component has no error branch: it is a total
    function to a card view. -/
structure CardView where
  sourceLabel : String
  title : String
  summaryText : Option String
  badge : Option BadgeView
  deriving DecidableEq, Repr

/-- UpdateCard as a pure view function. -/
def updateCard (u : RegulatoryUpdateDto) : CardView :=
  { sourceLabel := u.source
    title := u.title
    summaryText :=
      let t := truncatedSummary u
      if t = "" then none else some t
    badge := relevanceBadge u.relevanceScore }

/-- A normalized item as the deduplication layer receives it. -/
structure NormalizedItem where
  source : String
  sourceId : String
  title : String
  content : String
  url : String
  deriving DecidableEq, Repr

/-- A persisted RegulatoryUpdate row (regulatory_updates in the PRD
    schema, with the UNIQUE(source, source_id) constraint).  Content
    hashing is modelled by content equality. -/
structure StoredUpdate where
  source : String
  sourceId : String
  title : String
  content : String
  url : String
  deriving DecidableEq, Repr

/-- Key match on (source, source-native identifier). -/
def StoredUpdate.keyMatches (r : StoredUpdate) (src sid : String) : Bool :=
  r.source == src && r.sourceId == sid

/-- Outcome classification of one dedup step. -/
inductive DedupOutcome where
  | isNew : DedupOutcome
  | isChanged : DedupOutcome
  | isUnchanged : DedupOutcome
  deriving DecidableEq, Repr

/-- Modelled from the spec: the deduplication and persistence upsert of
    section 4.3, whose implementation is not in the repository (only the
    regulatory_updates schema declaration is).  Look up by (source,
    source-native identifier); absent means insert and mark new; present
    with identical content means no-op; present with different content
    means update the row in place and mark changed. -/
def upsertUpdate (store : List StoredUpdate) (item : NormalizedItem) :
    List StoredUpdate × DedupOutcome :=
  match store.find? fun r => r.keyMatches item.source item.sourceId with
  | none =>
    (store ++ [{ source := item.source, sourceId := item.sourceId,
                 title := item.title, content := item.content,
                 url := item.url }], .isNew)
  | some r =>
    if r.content == item.content then
      (store, .isUnchanged)
    else
      (store.map fun q =>
        if q.keyMatches item.source item.sourceId then
          { q with title := item.title, content := item.content,
                   url := item.url }
        else q, .isChanged)

/-- One ingestion run: fold the upsert over the run's items. -/
def ingestRun (store : List StoredUpdate) (items : List NormalizedItem) :
    List StoredUpdate :=
  items.foldl (fun s i => (upsertUpdate s i).1) store

/-- A sequence of ingestion runs, possibly repeated and overlapping. -/
def ingestRuns (store : List StoredUpdate) (runs : List (List NormalizedItem)) :
    List StoredUpdate :=
  runs.foldl ingestRun store

/-- Uniqueness of (source, source-native identifier) across the store. -/
def uniqUpdateKeys (store : List StoredUpdate) : Prop :=
  store.Pairwise fun a b => ¬(a.source = b.source ∧ a.sourceId = b.sourceId)

/-- The parsed shape of an AI scoring response: either it failed to
    parse into the structured result, or it parsed into a score with
    reasoning. -/
inductive AIScoringResponse where
  | malformed : String → AIScoringResponse
  | structuredResult : Int → String → AIScoringResponse
  deriving DecidableEq, Repr

/-- Modelled from the spec: response validation of section 4.4, whose
    implementation is not in the repository (only the scoring prompt
    template is).  The response must be a well-formed structured result
    with an integer score in 1 to 100; anything else is rejected, never
    clamped. -/
def validateScoringResponse : AIScoringResponse → Option (Int × String)
  | .malformed _ => none
  | .structuredResult s reasoning =>
    if 1 ≤ s ∧ s ≤ 100 then some (s, reasoning) else none

/-- A persisted UpdateAnalysis row (update_analysis in the PRD
    schema). -/
structure UpdateAnalysisRow where
  updateId : Nat
  summary : String
  relevanceScore : Int
  impactLevel : String
  keyPoints : List String
  deriving DecidableEq, Repr

/-- Modelled from the spec: one AI-analysis attempt for one update.  A
    response that fails validation persists nothing for that attempt; a
    valid response persists one analysis row carrying the validated
    score. -/
def persistAnalysis (store : List UpdateAnalysisRow) (updateId : Nat)
    (summary : String) (impactLevel : String) (keyPoints : List String)
    (resp : AIScoringResponse) : List UpdateAnalysisRow :=
  match validateScoringResponse resp with
  | none => store
  | some (score, _) =>
    store ++ [{ updateId := updateId, summary := summary,
                relevanceScore := score, impactLevel := impactLevel,
                keyPoints := keyPoints }]

/-- One analysis attempt bundled as data, for folding over a
    sequence of attempts. -/
structure AnalysisAttempt where
  updateId : Nat
  summary : String
  impactLevel : String
  keyPoints : List String
  response : AIScoringResponse
  deriving DecidableEq, Repr

/-- Modelled from the spec: any sequence of AI-analysis attempts,
    applied in order. -/
def runAnalysisAttempts (store : List UpdateAnalysisRow)
    (attempts : List AnalysisAttempt) : List UpdateAnalysisRow :=
  attempts.foldl
    (fun s a => persistAnalysis s a.updateId a.summary a.impactLevel
      a.keyPoints a.response) store

/-- Delivery status of a digest (digest_history.delivery_status in the
    PRD schema, plus the pending state of section 4.6). -/
inductive DeliveryStatus where
  | pending : DeliveryStatus
  | sent : DeliveryStatus
  | failed : DeliveryStatus
  | bounced : DeliveryStatus
  deriving DecidableEq, Repr

/-- A persisted Digest row (digest_history in the PRD schema, keyed per
    user and calendar day as section 3 requires). -/
structure DigestRecord where
  userId : Nat
  day : Nat
  updateIds : List Nat
  emailContent : String
  status : DeliveryStatus
  deriving DecidableEq, Repr

/-- Key match on (user, calendar day). -/
def DigestRecord.keyMatches (r : DigestRecord) (u d : Nat) : Bool :=
  r.userId == u && r.day == d

/-- Modelled from the spec: the digest composer production path of
    section 4.6, whose implementation is not in the repository.  Before
    rendering it checks for an existing Digest row for (user, day); if
    one is present composition is a no-op, otherwise exactly one new row
    is created. -/
def composeDigest (store : List DigestRecord) (u d : Nat)
    (updateIds : List Nat) (html : String) : List DigestRecord :=
  if store.any fun r => r.keyMatches u d then
    store
  else
    store ++ [{ userId := u, day := d, updateIds := updateIds,
                emailContent := html, status := .pending }]

/-- Modelled from the spec: the preview path of section 4.6, which
    renders the digest document for (user, day) from the candidate
    titles without persisting a new row or mutating an existing one. -/
def previewCompose (store : List DigestRecord) (u d : Nat)
    (candidateTitles : List String) : List DigestRecord × String :=
  (store, String.intercalate "\n" candidateTitles)

/-- One operation against the digest store. -/
inductive DigestOp where
  | produce : Nat → Nat → List Nat → String → DigestOp
  | preview : Nat → Nat → List String → DigestOp
  deriving DecidableEq, Repr

/-- Apply one digest operation to the store. -/
def applyDigestOp (store : List DigestRecord) : DigestOp → List DigestRecord
  | .produce u d ids html => composeDigest store u d ids html
  | .preview u d titles => (previewCompose store u d titles).1

/-- Any interleaving of production runs and preview requests. -/
def runDigestOps (store : List DigestRecord) (ops : List DigestOp) :
    List DigestRecord :=
  ops.foldl applyDigestOp store

/-- At most one Digest row per (user, day), as pairwise distinctness of
    the keys. -/
def uniqDigestKeys (store : List DigestRecord) : Prop :=
  store.Pairwise fun a b => ¬(a.userId = b.userId ∧ a.day = b.day)

/-- Number of Digest rows for one (user, day). -/
def digestCount (store : List DigestRecord) (u d : Nat) : Nat :=
  (store.filter fun r => r.keyMatches u d).length

/-- Modelled from the spec: the API serialization of a digest delivery
    status into the boolean delivered field the client receives; only a
    sent digest is delivered. -/
def deliveredOf : DeliveryStatus → Bool
  | .sent => true
  | .pending => false
  | .failed => false
  | .bounced => false

/-- A persisted UserUpdateRelevance row (user_update_relevance in the
    PRD schema). -/
structure UserUpdateRow where
  userId : Nat
  updateId : Nat
  relevanceScore : Option Int
  isCompetitorRelated : Bool
  isBookmarked : Bool
  isRead : Bool
  deriving DecidableEq, Repr

/-- Key match on (user, update). -/
def UserUpdateRow.keyMatches (r : UserUpdateRow) (u i : Nat) : Bool :=
  r.userId == u && r.updateId == i

/-- Modelled from the spec: the Relevance Engine upsert of section 4.5,
    whose implementation is not in the repository.  It writes the score
    and competitor-flag fields of the (user, update) row and must not
    disturb that row's read and bookmark fields. -/
def relevanceUpsert (store : List UserUpdateRow) (u i : Nat)
    (score : Int) (flag : Bool) : List UserUpdateRow :=
  if store.any fun r => r.keyMatches u i then
    store.map fun r =>
      if r.keyMatches u i then
        { r with relevanceScore := some score, isCompetitorRelated := flag }
      else r
  else
    store ++ [{ userId := u, updateId := i, relevanceScore := some score,
                isCompetitorRelated := flag, isBookmarked := false,
                isRead := false }]

/-- Modelled from the spec: the server handler behind the bookmark
    endpoint, which toggles only the bookmark field of the (user,
    update) row. -/
def toggleBookmark (store : List UserUpdateRow) (u i : Nat) :
    List UserUpdateRow :=
  store.map fun r =>
    if r.keyMatches u i then { r with isBookmarked := !r.isBookmarked } else r

/-- Modelled from the spec: the server handler behind the mark-as-read
    endpoint, which sets only the read field of the (user, update)
    row. -/
def markRead (store : List UserUpdateRow) (u i : Nat) :
    List UserUpdateRow :=
  store.map fun r =>
    if r.keyMatches u i then { r with isRead := true } else r

/-- Splitting an if-guarded filterMap into a filter followed by a
    map. -/
theorem filterMap_guard_eq_filter_map {α β : Type} (p : α → Bool)
    (f : α → β) (l : List α) :
    (l.filterMap fun a => if p a then some (f a) else none) =
      (l.filter p).map f := by
  induction l with
  | nil => rfl
  | cons a t ih =>
    by_cases h : p a <;>
      simp [List.filterMap_cons, List.filter_cons, h, ih]

/-- C5: the client's digest preview operation posts to the preview
    endpoint with a JSON body whose hours_back field equals 24. -/
theorem C5_preview_request_hours_back_24 :
    previewDigestRequest.url = "/digests/preview" ∧
    previewDigestRequest.method = "POST" ∧
    previewDigestRequest.bodyField "hours_back" = some (JsValue.num 24) :=
  ⟨rfl, rfl, rfl⟩

/-- C10: the query built by getUpdates consists of exactly the filter
    entries whose values are neither undefined, null, nor the empty
    string, each rendered with the String() conversion; numeric zero and
    boolean false survive the guard, and when nothing survives the URL
    carries no query string. -/
theorem C10_getUpdates_query_exact (filters : List (String × JsValue)) :
    buildParams filters =
      (filters.filter fun kv => keptByGetUpdates kv.2).map
        (fun kv => (kv.1, kv.2.toJsString)) ∧
    keptByGetUpdates (JsValue.num 0) = true ∧
    keptByGetUpdates (JsValue.bool false) = true ∧
    keptByGetUpdates JsValue.undef = false ∧
    keptByGetUpdates JsValue.null = false ∧
    keptByGetUpdates (JsValue.str "") = false ∧
    (buildParams filters = [] →
      (getUpdatesRequest filters).url = "/updates") := by
  refine ⟨filterMap_guard_eq_filter_map _ _ _, rfl, rfl, rfl, rfl, by decide, ?_⟩
  intro h
  simp only [getUpdatesRequest, h, renderQuery]
  decide

/-- C10 witness: a filter object whose every entry is filtered out
    yields the bare /updates URL, and zero-valued and false-valued
    entries pass the guard. -/
theorem C10_witness :
    (getUpdatesRequest
      [("source", JsValue.undef), ("page", JsValue.null),
       ("q", JsValue.str "")]).url = "/updates" ∧
    keptByGetUpdates (JsValue.num 0) = true ∧
    keptByGetUpdates (JsValue.bool false) = true := by
  have h := C10_getUpdates_query_exact
    [("source", JsValue.undef), ("page", JsValue.null), ("q", JsValue.str "")]
  exact ⟨h.2.2.2.2.2.2 (by decide), h.2.1, h.2.2.1⟩

/-- C9: the apiFetch response handler always clears the stored token,
    redirects to the login page and signals an auth failure on a 401;
    on any other non-ok status it throws an error whose message is the
    body's truthy detail field when present and a generic status message
    otherwise; and a 204 response yields the undefined result. -/
theorem C9_apiFetch_response_handling (st : ClientState)
    (resp : HttpResponse) (respBody : String) :
    (resp.status = 401 →
      apiFetchHandle st resp respBody =
        ({ token := none, location := "/login" }, .authFailure)) ∧
    (resp.status ≠ 401 → respOk resp = false →
      apiFetchHandle st resp respBody = (st, .failure (failureMessage resp)) ∧
      (∀ d, resp.detail = some d → d ≠ "" → failureMessage resp = d) ∧
      (resp.detail = none →
        failureMessage resp = "Request failed: " ++ toString resp.status)) ∧
    (resp.status = 204 → apiFetchHandle st resp respBody = (st, .noContent)) := by
  refine ⟨?_, ?_, ?_⟩
  · intro h
    simp [apiFetchHandle, h]
  · intro h1 h2
    refine ⟨by simp [apiFetchHandle, h1, h2], ?_, ?_⟩
    · intro d hd hne
      simp [failureMessage, hd, hne]
    · intro hd
      simp [failureMessage, hd]
  · intro h
    have hok : respOk resp = true := by simp [respOk, h]
    have h401 : resp.status ≠ 401 := by omega
    simp [apiFetchHandle, h401, hok, h]

/-- C9 witness: concrete 401, 500-with-detail and 204 responses behave
    as the theorem states. -/
theorem C9_witness :
    apiFetchHandle ⟨some "tok", "/feed"⟩ ⟨401, none⟩ "x" =
      (⟨none, "/login"⟩, .authFailure) ∧
    apiFetchHandle ⟨some "tok", "/feed"⟩ ⟨500, some "boom"⟩ "x" =
      (⟨some "tok", "/feed"⟩, .failure "boom") ∧
    apiFetchHandle ⟨some "tok", "/feed"⟩ ⟨204, none⟩ "x" =
      (⟨some "tok", "/feed"⟩, .noContent) := by
  refine ⟨(C9_apiFetch_response_handling _ _ _).1 rfl, ?_,
    (C9_apiFetch_response_handling _ _ _).2.2 rfl⟩
  have h := (C9_apiFetch_response_handling ⟨some "tok", "/feed"⟩
    ⟨500, some "boom"⟩ "x").2.1 (by decide) (by decide)
  exact h.1.trans (by decide)

/-- C8: for an analysis-pending update (null or undefined relevance
    score) the badge component renders nothing, and the update card is
    still produced with its title, source and available summary; the
    card function is total, with no error branch. -/
theorem C8_pending_update_renders_without_badge (u : RegulatoryUpdateDto)
    (h : u.relevanceScore = none) :
    relevanceBadge u.relevanceScore = none ∧
    (updateCard u).badge = none ∧
    (updateCard u).title = u.title ∧
    (updateCard u).sourceLabel = u.source ∧
    (truncatedSummary u ≠ "" →
      (updateCard u).summaryText = some (truncatedSummary u)) := by
  refine ⟨by simp [relevanceBadge, h], by simp [updateCard, relevanceBadge, h],
    rfl, rfl, ?_⟩
  intro hne
  simp [updateCard, hne]

/-- C8 witness: a concrete score-less update still renders its title
    and summary, badge-free. -/
theorem C8_witness :
    relevanceBadge (RegulatoryUpdateDto.relevanceScore
      ⟨3, "New guidance", "FDA", "Guidance", some "Short summary", none,
        none, none, none, "2024-01-02"⟩) = none ∧
    (updateCard ⟨3, "New guidance", "FDA", "Guidance", some "Short summary",
      none, none, none, none, "2024-01-02"⟩).badge = none ∧
    (updateCard ⟨3, "New guidance", "FDA", "Guidance", some "Short summary",
      none, none, none, none, "2024-01-02"⟩).title = "New guidance" ∧
    (updateCard ⟨3, "New guidance", "FDA", "Guidance", some "Short summary",
      none, none, none, none, "2024-01-02"⟩).summaryText =
        some (truncatedSummary ⟨3, "New guidance", "FDA", "Guidance",
          some "Short summary", none, none, none, none, "2024-01-02"⟩) := by
  have h := C8_pending_update_renders_without_badge
    ⟨3, "New guidance", "FDA", "Guidance", some "Short summary", none,
      none, none, none, "2024-01-02"⟩ rfl
  exact ⟨h.1, h.2.1, h.2.2.1, h.2.2.2.2 (by decide)⟩

/-- C7: the digest history renders one row per digest, so a digest
    whose delivery failed or bounced is not omitted, and its row carries
    the Not delivered badge, which is distinct from the Delivered
    badge. -/
theorem C7_failed_digest_shown_in_history (ds : List DigestDto) :
    (renderDigestList ds).length = ds.length ∧
    (∀ d ∈ ds, ∀ st : DeliveryStatus, st = .failed ∨ st = .bounced →
      d.delivered = deliveredOf st →
      renderDigestRow d ∈ renderDigestList ds ∧
      (renderDigestRow d).badge = .notDeliveredBadge ∧
      DeliveryBadge.notDeliveredBadge ≠ DeliveryBadge.deliveredBadge) := by
  refine ⟨List.length_map _ _, ?_⟩
  intro d hd st hst hdel
  have hfalse : d.delivered = false := by
    rcases hst with h | h <;> rw [h] at hdel <;> simpa [deliveredOf] using hdel
  exact ⟨List.mem_map_of_mem _ hd,
    by simp [renderDigestRow, hfalse], by decide⟩

/-- C7 witness: a concrete bounced digest appears in the rendered
    history with the Not delivered badge. -/
theorem C7_witness :
    renderDigestRow ⟨9, "2024-03-01", 4, "<html></html>", false⟩ ∈
      renderDigestList [⟨9, "2024-03-01", 4, "<html></html>", false⟩] ∧
    (renderDigestRow ⟨9, "2024-03-01", 4, "<html></html>", false⟩).badge =
      DeliveryBadge.notDeliveredBadge := by
  have h := (C7_failed_digest_shown_in_history
    [⟨9, "2024-03-01", 4, "<html></html>", false⟩]).2
    ⟨9, "2024-03-01", 4, "<html></html>", false⟩ (by decide)
    DeliveryStatus.bounced (Or.inr rfl) (by decide)
  exact ⟨h.1, h.2.1⟩

/-- C4: a preview invocation leaves the digest store exactly as it was,
    row for row; the client's preview call is the one POST to the
    preview endpoint, and the remaining digest operations of the client
    interface are GET reads, so the client interface exposes no
    operation that creates or mutates a Digest row. -/
theorem C4_preview_leaves_digest_store_unchanged
    (store : List DigestRecord) (u d : Nat) (titles : List String)
    (page pageSize : Int) (id : Nat) :
    (previewCompose store u d titles).1 = store ∧
    (∀ r ∈ store, r ∈ (previewCompose store u d titles).1) ∧
    previewDigestRequest.url = "/digests/preview" ∧
    previewDigestRequest.method = "POST" ∧
    (getDigestsRequest page pageSize).method = "GET" ∧
    (getDigestRequest id).method = "GET" := by
  exact ⟨rfl, fun r hr => hr, rfl, rfl, rfl, rfl⟩

/-- C4 witness: a concrete preview call returns a store containing
    exactly its prior row. -/
theorem C4_witness :
    (previewCompose [⟨1, 20240301, [5], "<p></p>", DeliveryStatus.sent⟩]
      1 20240301 ["Title"]).1 =
      [⟨1, 20240301, [5], "<p></p>", DeliveryStatus.sent⟩] ∧
    (⟨1, 20240301, [5], "<p></p>", DeliveryStatus.sent⟩ : DigestRecord) ∈
      (previewCompose [⟨1, 20240301, [5], "<p></p>", DeliveryStatus.sent⟩]
        1 20240301 ["Title"]).1 := by
  have h := C4_preview_leaves_digest_store_unchanged
    [⟨1, 20240301, [5], "<p></p>", DeliveryStatus.sent⟩] 1 20240301
    ["Title"] 1 20 7
  exact ⟨h.1, h.2.1 _ (by decide)⟩

/-- Key match on a Digest row, in propositional form. -/
theorem digest_keyMatches_iff (r : DigestRecord) (u d : Nat) :
    r.keyMatches u d = true ↔ r.userId = u ∧ r.day = d := by
  simp [DigestRecord.keyMatches]

/-- The composer's check-then-create step preserves key uniqueness. -/
theorem uniqDigestKeys_compose (store : List DigestRecord) (u d : Nat)
    (ids : List Nat) (html : String) (h : uniqDigestKeys store) :
    uniqDigestKeys (composeDigest store u d ids html) := by
  unfold composeDigest
  by_cases hany : (store.any fun r => r.keyMatches u d) = true
  · simpa [hany] using h
  · rw [if_neg (by simp [hany])]
    have hall : ∀ r ∈ store, ¬(r.userId = u ∧ r.day = d) := by
      intro r hr hk
      exact hany (List.any_eq_true.mpr
        ⟨r, hr, (digest_keyMatches_iff r u d).mpr hk⟩)
    refine List.pairwise_append.mpr ⟨h, List.pairwise_singleton _ _, ?_⟩
    intro a ha b hb
    simp only [List.mem_singleton] at hb
    subst hb
    simpa using hall a ha

/-- Every digest operation preserves key uniqueness. -/
theorem uniqDigestKeys_applyOp (store : List DigestRecord) (op : DigestOp)
    (h : uniqDigestKeys store) :
    uniqDigestKeys (applyDigestOp store op) := by
  cases op with
  | produce u d ids html => exact uniqDigestKeys_compose store u d ids html h
  | preview u d titles => exact h

/-- Any sequence of digest operations preserves key uniqueness. -/
theorem uniqDigestKeys_runOps (ops : List DigestOp)
    (store : List DigestRecord) (h : uniqDigestKeys store) :
    uniqDigestKeys (runDigestOps store ops) := by
  induction ops generalizing store with
  | nil => exact h
  | cons op rest ih => exact ih _ (uniqDigestKeys_applyOp store op h)

/-- Key uniqueness bounds the per-key row count by one. -/
theorem digestCount_le_one (store : List DigestRecord) (u d : Nat)
    (h : uniqDigestKeys store) : digestCount store u d ≤ 1 := by
  induction store with
  | nil => simp [digestCount]
  | cons a t ih =>
    have hpc := List.pairwise_cons.mp h
    by_cases hm : a.keyMatches u d = true
    · have hkey := (digest_keyMatches_iff a u d).mp hm
      have hnil : t.filter (fun r => r.keyMatches u d) = [] := by
        refine List.filter_eq_nil_iff.mpr ?_
        intro b hb hbk
        have hbkey := (digest_keyMatches_iff b u d).mp hbk
        exact hpc.1 b hb
          ⟨hkey.1.trans hbkey.1.symm, hkey.2.trans hbkey.2.symm⟩
      simp [digestCount, List.filter_cons, hm, hnil]
    · have : digestCount (a :: t) u d = digestCount t u d := by
        simp [digestCount, List.filter_cons, hm]
      rw [this]
      exact ih hpc.2

/-- C1: starting from a store with at most one Digest row per (user,
    day), any interleaving of production runs and preview requests keeps
    at most one row per (user, day); a preview operation leaves the
    store exactly unchanged, so any number of previews never increases
    the row count; and the composer's check-then-create step is a no-op
    whenever a row for that (user, day) already exists. -/
theorem C1_at_most_one_digest_per_user_day (store : List DigestRecord)
    (ops : List DigestOp) (h : uniqDigestKeys store) :
    uniqDigestKeys (runDigestOps store ops) ∧
    (∀ u d, digestCount (runDigestOps store ops) u d ≤ 1) ∧
    (∀ u d titles, applyDigestOp store (.preview u d titles) = store) ∧
    (∀ n u d titles,
      runDigestOps store (List.replicate n (.preview u d titles)) = store) ∧
    (∀ u d ids html, (store.any fun r => r.keyMatches u d) = true →
      composeDigest store u d ids html = store) := by
  refine ⟨uniqDigestKeys_runOps ops store h, ?_, ?_, ?_, ?_⟩
  · intro u d
    exact digestCount_le_one _ u d (uniqDigestKeys_runOps ops store h)
  · intro u d titles
    rfl
  · intro n u d titles
    induction n with
    | zero => rfl
    | succ k ih => simpa [List.replicate_succ, runDigestOps] using ih
  · intro u d ids html hany
    simp [composeDigest, hany]

/-- C1 witness: from an empty store, a production run followed by two
    previews and a retried production run for the same (user, day)
    leaves a single row for that key. -/
theorem C1_witness :
    digestCount (runDigestOps []
      [DigestOp.produce 1 20240301 [4] "<p>a</p>",
       DigestOp.preview 1 20240301 ["T"],
       DigestOp.produce 1 20240301 [4] "<p>b</p>",
       DigestOp.preview 1 20240301 ["T"]]) 1 20240301 ≤ 1 ∧
    applyDigestOp [] (DigestOp.preview 1 20240301 ["T"]) = [] ∧
    runDigestOps [] (List.replicate 3 (DigestOp.preview 1 20240301 ["T"])) = [] := by
  have h := C1_at_most_one_digest_per_user_day []
    [DigestOp.produce 1 20240301 [4] "<p>a</p>",
     DigestOp.preview 1 20240301 ["T"],
     DigestOp.produce 1 20240301 [4] "<p>b</p>",
     DigestOp.preview 1 20240301 ["T"]] List.Pairwise.nil
  exact ⟨h.2.1 1 20240301, h.2.2.1 1 20240301 ["T"],
    h.2.2.2.1 3 1 20240301 ["T"]⟩

/-- Key match on a stored update, in propositional form. -/
theorem stored_keyMatches_iff (r : StoredUpdate) (src sid : String) :
    r.keyMatches src sid = true ↔ r.source = src ∧ r.sourceId = sid := by
  simp [StoredUpdate.keyMatches]

/-- The in-place update of the changed-content path preserves the key
    fields of every row. -/
theorem upsert_map_preserves_key (item : NormalizedItem) (q : StoredUpdate) :
    ((if q.keyMatches item.source item.sourceId then
        { q with title := item.title, content := item.content,
                 url := item.url }
      else q) : StoredUpdate).source = q.source ∧
    ((if q.keyMatches item.source item.sourceId then
        { q with title := item.title, content := item.content,
                 url := item.url }
      else q) : StoredUpdate).sourceId = q.sourceId := by
  by_cases hq : q.keyMatches item.source item.sourceId = true <;> simp [hq]

/-- One dedup upsert preserves (source, source-native identifier)
    uniqueness. -/
theorem uniqUpdateKeys_upsert (store : List StoredUpdate)
    (item : NormalizedItem) (h : uniqUpdateKeys store) :
    uniqUpdateKeys (upsertUpdate store item).1 := by
  unfold upsertUpdate
  cases hfind : store.find? fun r => r.keyMatches item.source item.sourceId with
  | none =>
    simp only
    have hall : ∀ r ∈ store, ¬(r.source = item.source ∧ r.sourceId = item.sourceId) := by
      intro r hr hk
      have hnone := List.find?_eq_none.mp hfind r hr
      exact hnone ((stored_keyMatches_iff r item.source item.sourceId).mpr hk)
    refine List.pairwise_append.mpr ⟨h, List.pairwise_singleton _ _, ?_⟩
    intro a ha b hb
    simp only [List.mem_singleton] at hb
    subst hb
    simpa using hall a ha
  | some r =>
    by_cases hc : (r.content == item.content) = true
    · simpa [hc] using h
    · simp only [hc, Bool.false_eq_true, if_false]
      refine List.Pairwise.map _ ?_ h
      intro a b hab hkey
      rcases upsert_map_preserves_key item a with ⟨ha1, ha2⟩
      rcases upsert_map_preserves_key item b with ⟨hb1, hb2⟩
      rw [ha1, ha2, hb1, hb2] at hkey
      exact hab hkey

/-- One ingestion run preserves key uniqueness. -/
theorem uniqUpdateKeys_ingestRun (items : List NormalizedItem)
    (store : List StoredUpdate) (h : uniqUpdateKeys store) :
    uniqUpdateKeys (ingestRun store items) := by
  induction items generalizing store with
  | nil => exact h
  | cons i rest ih => exact ih _ (uniqUpdateKeys_upsert store i h)

/-- Any sequence of ingestion runs preserves key uniqueness. -/
theorem uniqUpdateKeys_ingestRuns (runs : List (List NormalizedItem))
    (store : List StoredUpdate) (h : uniqUpdateKeys store) :
    uniqUpdateKeys (ingestRuns store runs) := by
  induction runs generalizing store with
  | nil => exact h
  | cons r rest ih => exact ih _ (uniqUpdateKeys_ingestRun r store h)

/-- C2: starting from a store whose (source, source-native identifier)
    pairs are unique, any sequence of ingestion runs, repeated and
    overlapping included, keeps them unique; and re-ingesting an item
    whose identifier is already present never changes the number of
    rows and leaves the store holding a row with that key and the
    re-ingested content. -/
theorem C2_source_id_unique_under_reingestion (store : List StoredUpdate)
    (runs : List (List NormalizedItem)) (item : NormalizedItem)
    (h : uniqUpdateKeys store) :
    uniqUpdateKeys (ingestRuns store runs) ∧
    ((store.any fun r => r.keyMatches item.source item.sourceId) = true →
      (upsertUpdate store item).1.length = store.length ∧
      ∃ r ∈ (upsertUpdate store item).1,
        r.source = item.source ∧ r.sourceId = item.sourceId ∧
        r.content = item.content) := by
  refine ⟨uniqUpdateKeys_ingestRuns runs store h, ?_⟩
  intro hany
  cases hfind : store.find?
      (fun r => r.keyMatches item.source item.sourceId) with
  | none =>
    exfalso
    rcases List.any_eq_true.mp hany with ⟨r, hr, hk⟩
    exact (List.find?_eq_none.mp hfind r hr) hk
  | some r =>
    have hkey0 := List.find?_some hfind
    have hkey : r.keyMatches item.source item.sourceId = true := hkey0
    have hmem : r ∈ store := List.mem_of_find?_eq_some hfind
    rcases (stored_keyMatches_iff r item.source item.sourceId).mp hkey with
      ⟨hsrc, hsid⟩
    unfold upsertUpdate
    rw [hfind]
    by_cases hc : (r.content == item.content) = true
    · refine ⟨by simp [hc], ?_⟩
      simp only [hc, if_true]
      exact ⟨r, hmem, hsrc, hsid, by simpa using hc⟩
    · simp only [hc, Bool.false_eq_true, if_false]
      refine ⟨List.length_map _ _, ?_⟩
      have hmap := List.mem_map_of_mem
        (fun q => if q.keyMatches item.source item.sourceId then
          { q with title := item.title, content := item.content, url := item.url }
        else q) hmem
      exact ⟨_, hmap, by simp [hkey, hsrc], by simp [hkey, hsid],
        by simp [hkey]⟩

/-- C2 witness: ingesting the same identifier three times across two
    runs, the second time with changed content, leaves unique keys, and
    the direct re-upsert keeps the row count at one with the new
    content in place. -/
theorem C2_witness :
    uniqUpdateKeys (ingestRuns []
      [[⟨"fda", "G-001", "T1", "c1", "u1"⟩,
        ⟨"fda", "G-001", "T1b", "c2", "u1"⟩],
       [⟨"fda", "G-001", "T1b", "c2", "u1"⟩]]) ∧
    (upsertUpdate [⟨"fda", "G-001", "T1", "c1", "u1"⟩]
      ⟨"fda", "G-001", "T1b", "c2", "u1"⟩).1.length = 1 ∧
    ∃ r ∈ (upsertUpdate [⟨"fda", "G-001", "T1", "c1", "u1"⟩]
      ⟨"fda", "G-001", "T1b", "c2", "u1"⟩).1,
      r.source = "fda" ∧ r.sourceId = "G-001" ∧ r.content = "c2" := by
  have h1 := C2_source_id_unique_under_reingestion []
    [[⟨"fda", "G-001", "T1", "c1", "u1"⟩,
      ⟨"fda", "G-001", "T1b", "c2", "u1"⟩],
     [⟨"fda", "G-001", "T1b", "c2", "u1"⟩]]
    ⟨"fda", "G-001", "T1b", "c2", "u1"⟩ List.Pairwise.nil
  have h2 := C2_source_id_unique_under_reingestion
    [⟨"fda", "G-001", "T1", "c1", "u1"⟩] []
    ⟨"fda", "G-001", "T1b", "c2", "u1"⟩ (List.pairwise_singleton _ _)
  have h2' := h2.2 (by decide)
  exact ⟨h1.1, h2'.1, h2'.2⟩

/-- A scoring response that passes validation carries a score in 1 to
    100. -/
theorem validate_some_in_range (resp : AIScoringResponse) (sc : Int)
    (rs : String) (h : validateScoringResponse resp = some (sc, rs)) :
    1 ≤ sc ∧ sc ≤ 100 := by
  cases resp with
  | malformed raw => exact absurd h (by simp [validateScoringResponse])
  | structuredResult s reasoning =>
    by_cases hcond : 1 ≤ s ∧ s ≤ 100
    · have hs : s = sc := by
        rw [validateScoringResponse, if_pos hcond] at h
        exact (Prod.mk.injEq _ _ _ _).mp (Option.some.inj h) |>.1
      rw [← hs]
      exact hcond
    · rw [validateScoringResponse, if_neg hcond] at h
      cases h

/-- One analysis attempt preserves the score-range property of the
    analysis store. -/
theorem persistAnalysis_range (store : List UpdateAnalysisRow) (uid : Nat)
    (summ imp : String) (kps : List String) (resp : AIScoringResponse)
    (h : ∀ a ∈ store, 1 ≤ a.relevanceScore ∧ a.relevanceScore ≤ 100) :
    ∀ a ∈ persistAnalysis store uid summ imp kps resp,
      1 ≤ a.relevanceScore ∧ a.relevanceScore ≤ 100 := by
  unfold persistAnalysis
  cases hv : validateScoringResponse resp with
  | none => exact h
  | some p =>
    obtain ⟨sc, rs⟩ := p
    intro a ha
    rcases List.mem_append.mp ha with h1 | h2
    · exact h a h1
    · simp only [List.mem_singleton] at h2
      subst h2
      simpa using validate_some_in_range resp sc rs hv

/-- A whole sequence of analysis attempts preserves the score-range
    property. -/
theorem runAnalysisAttempts_range (attempts : List AnalysisAttempt)
    (store : List UpdateAnalysisRow)
    (h : ∀ a ∈ store, 1 ≤ a.relevanceScore ∧ a.relevanceScore ≤ 100) :
    ∀ a ∈ runAnalysisAttempts store attempts,
      1 ≤ a.relevanceScore ∧ a.relevanceScore ≤ 100 := by
  induction attempts generalizing store with
  | nil => exact h
  | cons at0 rest ih =>
    exact ih _ (persistAnalysis_range store at0.updateId at0.summary
      at0.impactLevel at0.keyPoints at0.response h)

/-- C3: starting from an analysis store whose rows all carry scores in
    1 to 100, every row after any sequence of AI-analysis attempts
    still does; a malformed scoring response persists nothing for its
    attempt, and an out-of-range score persists nothing either, the
    store being left exactly as it was rather than receiving a clamped
    value. -/
theorem C3_analysis_scores_in_range_never_clamped
    (store : List UpdateAnalysisRow) (attempts : List AnalysisAttempt)
    (uid : Nat) (summ imp raw : String) (kps : List String)
    (s : Int) (reasoning : String)
    (h : ∀ a ∈ store, 1 ≤ a.relevanceScore ∧ a.relevanceScore ≤ 100) :
    (∀ a ∈ runAnalysisAttempts store attempts,
      1 ≤ a.relevanceScore ∧ a.relevanceScore ≤ 100) ∧
    persistAnalysis store uid summ imp kps (.malformed raw) = store ∧
    (¬(1 ≤ s ∧ s ≤ 100) →
      persistAnalysis store uid summ imp kps
        (.structuredResult s reasoning) = store) := by
  refine ⟨runAnalysisAttempts_range attempts store h, rfl, ?_⟩
  intro hs
  simp [persistAnalysis, validateScoringResponse, if_neg hs]

/-- C3 witness: one valid attempt (score 50) and two invalid ones (a
    malformed body and the out-of-range score 150) leave exactly one
    row, in range, and the invalid attempts persist nothing. -/
theorem C3_witness :
    (1 ≤ (UpdateAnalysisRow.relevanceScore
        ⟨7, "s", 50, "high", ["k"]⟩) ∧
      (UpdateAnalysisRow.relevanceScore ⟨7, "s", 50, "high", ["k"]⟩) ≤ 100) ∧
    persistAnalysis [] 7 "s" "high" ["k"]
      (AIScoringResponse.malformed "not json") = [] ∧
    persistAnalysis [] 7 "s" "high" ["k"]
      (AIScoringResponse.structuredResult 150 "r") = [] := by
  have h := C3_analysis_scores_in_range_never_clamped []
    [⟨7, "s", "high", ["k"], AIScoringResponse.structuredResult 50 "ok"⟩,
     ⟨7, "s", "high", ["k"], AIScoringResponse.malformed "not json"⟩,
     ⟨7, "s", "high", ["k"], AIScoringResponse.structuredResult 150 "r"⟩]
    7 "s" "high" "not json" ["k"] 150 "r" (by intro a ha; cases ha)
  refine ⟨h.1 ⟨7, "s", 50, "high", ["k"]⟩ (by decide), h.2.1, h.2.2 (by decide)⟩

/-- Key match on a UserUpdateRelevance row, in propositional form. -/
theorem userRow_keyMatches_iff (r : UserUpdateRow) (u i : Nat) :
    r.keyMatches u i = true ↔ r.userId = u ∧ r.updateId = i := by
  simp [UserUpdateRow.keyMatches]

/-- C6: the two write paths into UserUpdateRelevance never touch each
    other's fields.  The client's bookmark and mark-as-read requests
    carry no body, hence no score or competitor-flag data; the relevance
    engine's upsert gives every prior row a successor with the same key
    and unchanged read and bookmark fields; and the user-facing bookmark
    and read handlers give every prior row a successor with the same key
    and unchanged score and competitor-flag fields. -/
theorem C6_write_paths_touch_disjoint_fields (id u i : Nat) (score : Int)
    (flag : Bool) (store : List UserUpdateRow) :
    (bookmarkRequest id).body = none ∧
    (markAsReadRequest id).body = none ∧
    (∀ r ∈ store, ∃ r' ∈ relevanceUpsert store u i score flag,
      r'.userId = r.userId ∧ r'.updateId = r.updateId ∧
      r'.isBookmarked = r.isBookmarked ∧ r'.isRead = r.isRead) ∧
    (∀ r ∈ store, ∃ r' ∈ toggleBookmark store u i,
      r'.userId = r.userId ∧ r'.updateId = r.updateId ∧
      r'.relevanceScore = r.relevanceScore ∧
      r'.isCompetitorRelated = r.isCompetitorRelated ∧
      r'.isRead = r.isRead) ∧
    (∀ r ∈ store, ∃ r' ∈ markRead store u i,
      r'.userId = r.userId ∧ r'.updateId = r.updateId ∧
      r'.relevanceScore = r.relevanceScore ∧
      r'.isCompetitorRelated = r.isCompetitorRelated ∧
      r'.isBookmarked = r.isBookmarked) := by
  refine ⟨rfl, rfl, ?_, ?_, ?_⟩
  · intro r hr
    unfold relevanceUpsert
    by_cases hany : (store.any fun r => r.keyMatches u i) = true
    · rw [if_pos hany]
      have hmap := List.mem_map_of_mem
        (fun r => if r.keyMatches u i then
          { r with relevanceScore := some score, isCompetitorRelated := flag }
        else r) hr
      by_cases hk : r.keyMatches u i = true
      · exact ⟨_, hmap, by simp [hk], by simp [hk], by simp [hk], by simp [hk]⟩
      · exact ⟨_, hmap, by simp [hk], by simp [hk], by simp [hk], by simp [hk]⟩
    · rw [if_neg hany]
      exact ⟨r, List.mem_append_left _ hr, rfl, rfl, rfl, rfl⟩
  · intro r hr
    have hmap := List.mem_map_of_mem
      (fun r => if r.keyMatches u i then
        { r with isBookmarked := !r.isBookmarked } else r) hr
    by_cases hk : r.keyMatches u i = true
    · exact ⟨_, hmap, by simp [hk], by simp [hk], by simp [hk], by simp [hk],
        by simp [hk]⟩
    · exact ⟨_, hmap, by simp [hk], by simp [hk], by simp [hk], by simp [hk],
        by simp [hk]⟩
  · intro r hr
    have hmap := List.mem_map_of_mem
      (fun r => if r.keyMatches u i then { r with isRead := true } else r) hr
    by_cases hk : r.keyMatches u i = true
    · exact ⟨_, hmap, by simp [hk], by simp [hk], by simp [hk], by simp [hk],
        by simp [hk]⟩
    · exact ⟨_, hmap, by simp [hk], by simp [hk], by simp [hk], by simp [hk],
        by simp [hk]⟩

/-- C6 witness: on a concrete store with one bookmarked, read row, the
    engine upsert and both user actions preserve the other path's
    fields, and the client requests are body-free. -/
theorem C6_witness :
    (bookmarkRequest 5).body = none ∧
    (markAsReadRequest 5).body = none ∧
    (∃ r' ∈ relevanceUpsert [⟨1, 5, some 40, false, true, true⟩] 1 5 90 true,
      r'.userId = 1 ∧ r'.updateId = 5 ∧
      r'.isBookmarked = true ∧ r'.isRead = true) ∧
    (∃ r' ∈ toggleBookmark [⟨1, 5, some 40, false, true, true⟩] 1 5,
      r'.userId = 1 ∧ r'.updateId = 5 ∧
      r'.relevanceScore = some 40 ∧ r'.isCompetitorRelated = false ∧
      r'.isRead = true) := by
  have h := C6_write_paths_touch_disjoint_fields 5 1 5 90 true
    [⟨1, 5, some 40, false, true, true⟩]
  have h3 := h.2.2.1 ⟨1, 5, some 40, false, true, true⟩ (by decide)
  have h4 := h.2.2.2.1 ⟨1, 5, some 40, false, true, true⟩ (by decide)
  exact ⟨h.1, h.2.1, h3, h4⟩

end RegRadar
